import Mathlib

/-!
Verification development for the gittensor-db data-access layer.

The definitions below are a shallow embedding of the Python source:
`models/domain_models.py`, `repositories/base_repository.py`,
`repositories/pull_requests_repository.py`, `repositories/miners_repository.py`,
`repositories/repositories_repository.py` and `migrations/migrator.py`.
Database state is modelled explicitly (committed statements, pending
uncommitted statements of the current transaction, instrumentation counters
for round trips and logged errors); the outcome of a driver call that can
raise is an explicit oracle parameter.
-/

namespace GittensorDB

/-! ## Python string primitives -/

/-- Model of Python `str.lower()` (character-wise lowercasing). -/
def pyLower (s : String) : String := String.mk (s.data.map Char.toLower)

/-- Model of Python `str.split(sep)` for a single-character separator:
`"" → [""]`, `"a/b" → ["a","b"]`, `"/" → ["",""]`. -/
def splitChar (sep : Char) : List Char → List (List Char)
  | [] => [[]]
  | c :: cs =>
    let r := splitChar sep cs
    if c = sep then [] :: r
    else
      match r with
      | [] => [[c]]
      | h :: t => (c :: h) :: t

/-- Model of Python list indexing `l[-1]` on a non-empty list (with a default). -/
def lastElemD {α : Type} : List α → α → α
  | [], d => d
  | [a], _ => a
  | _ :: b :: t, d => lastElemD (b :: t) d

/-- Modelled from the spec: the suffix of a string strictly after its last
occurrence of `sep` (meaningful when `sep` occurs in the string). -/
def suffixAfterLast (sep : Char) : List Char → List Char
  | [] => []
  | c :: cs =>
    if sep ∈ cs then suffixAfterLast sep cs
    else if c = sep then cs
    else suffixAfterLast sep cs

/-! ## Domain models (`models/domain_models.py`) -/

/-- A Python integer-like runtime value: a plain `int` or a numpy fixed-width
integer box (`np.integer`), carrying its numeric value. -/
inductive PyIntLike where
  | plain : Int → PyIntLike
  | numpy : Int → PyIntLike
  deriving Repr, DecidableEq

/-- Model of `isinstance(x, np.integer)`. -/
def PyIntLike.isNumpyInteger : PyIntLike → Bool
  | .numpy _ => true
  | .plain _ => false

/-- Model of numpy's `.item()`: unbox a numpy scalar to a plain `int`
(identity on plain ints, which is never the receiver in the source). -/
def PyIntLike.item : PyIntLike → PyIntLike
  | .numpy n => .plain n
  | .plain n => .plain n

/-- The numeric value carried by a `PyIntLike`. -/
def PyIntLike.val : PyIntLike → Int
  | .numpy n => n
  | .plain n => n

/-- Python floats: their exact value is irrelevant to the claims, an exact
carrier suffices. -/
abbrev PyFloat := Rat

/-- `datetime` values, abstracted to a totally-ordered carrier. -/
abbrev DateTime := Int

/-- `FileChange` dataclass. -/
structure FileChange where
  pr_number : Int
  repository_full_name : String
  filename : String
  changes : Int
  additions : Int
  deletions : Int
  status : String
  patch : Option String := none
  file_extension : Option String := none
  id : Option Int := none
  deriving Repr, DecidableEq

/-- `FileChange._calculate_file_extension`:
`self.filename.split(".")[-1].lower() if "." in self.filename else ""`. -/
def FileChange.calculate_file_extension (filename : String) : String :=
  if '.' ∈ filename.data then
    pyLower (String.mk (lastElemD (splitChar '.' filename.data) []))
  else ""

/-- `FileChange.__post_init__`: fill in `file_extension` if it was not given. -/
def FileChange.post_init (fc : FileChange) : FileChange :=
  match fc.file_extension with
  | none => { fc with file_extension := some (FileChange.calculate_file_extension fc.filename) }
  | some _ => fc

/-- Dataclass construction `FileChange(...)` (field order of the dataclass),
which runs `__post_init__`. -/
def mkFileChange (pr_number : Int) (repository_full_name filename : String)
    (changes additions deletions : Int) (status : String)
    (patch : Option String) (file_extension : Option String) (id : Option Int) :
    FileChange :=
  FileChange.post_init
    { pr_number := pr_number
      repository_full_name := repository_full_name
      filename := filename
      changes := changes
      additions := additions
      deletions := deletions
      status := status
      patch := patch
      file_extension := file_extension
      id := id }

/-- `Issue` dataclass. -/
structure Issue where
  number : Int
  pr_number : Int
  repository_full_name : String
  title : String
  created_at : Option DateTime := none
  closed_at : Option DateTime := none
  deriving Repr, DecidableEq

/-- `PullRequest` dataclass. -/
structure PullRequest where
  number : Int
  repository_full_name : String
  uid : PyIntLike
  hotkey : String
  github_id : String
  title : String
  author_login : String
  merged_at : DateTime
  created_at : DateTime
  earned_score : PyFloat := 0
  additions : Int := 0
  deletions : Int := 0
  commits : Int := 0
  merged_by_login : Option String := none
  file_changes : Option (List FileChange) := none
  issues : Option (List Issue) := none
  deriving Repr, DecidableEq

/-- `Miner` dataclass. -/
structure Miner where
  uid : Int
  hotkey : String
  github_id : String
  deriving Repr, DecidableEq

/-- `MinerEvaluation` dataclass. -/
structure MinerEvaluation where
  uid : Int
  hotkey : String
  github_id : Option String := none
  github_pat : Option String := none
  id : Option Int := none
  total_score : PyFloat := 0
  total_lines_changed : Int := 0
  total_open_prs : Int := 0
  unique_repos_count : Int := 0
  failed_reason : Option String := none
  evaluation_timestamp : Option DateTime := none
  pull_requests : List PullRequest := []
  unique_repos_contributed_to : List String := []
  stored_total_prs : Option Int := none
  deriving Repr, DecidableEq

/-- `MinerEvaluation.total_prs` property:
`self.stored_total_prs if self.stored_total_prs is not None else len(self.pull_requests)`. -/
def MinerEvaluation.total_prs (e : MinerEvaluation) : Int :=
  match e.stored_total_prs with
  | some n => n
  | none => e.pull_requests.length

/-! ## Connection / database state model

The connection handle's observable behaviour is modelled as explicit state:
`committed` holds the statements (with bound parameters) that are visible to
other observers, `pending` the statements executed in the current,
not-yet-committed transaction.  `roundTrips`, `errorsLogged` and `attempted`
are instrumentation: the number of request/response exchanges with storage,
the number of `logger.error` calls, and the migration scripts whose run was
attempted. -/

/-- A SQL value bound to a statement parameter. `numpyInt` is the problematic
binding of an unconverted numpy integer box. -/
inductive SqlValue where
  | int : Int → SqlValue
  | numpyInt : Int → SqlValue
  | float : PyFloat → SqlValue
  | str : String → SqlValue
  | time : DateTime → SqlValue
  | null : SqlValue
  deriving Repr, DecidableEq

/-- Bind a Python int-like value as a statement parameter (no conversion). -/
def bindPyInt : PyIntLike → SqlValue
  | .plain n => .int n
  | .numpy n => .numpyInt n

/-- Bind an optional string (None becomes SQL NULL). -/
def bindOptStr : Option String → SqlValue
  | some s => .str s
  | none => .null

/-- Bind an optional datetime. -/
def bindOptTime : Option DateTime → SqlValue
  | some t => .time t
  | none => .null

/-- A statement submitted to the driver: query text plus bound parameters. -/
abbrev Command := String × List SqlValue

/-- Observable state of the shared connection handle. -/
structure DBState where
  committed : List Command := []
  pending : List Command := []
  roundTrips : Nat := 0
  errorsLogged : Nat := 0
  attempted : List String := []
  deriving Repr, DecidableEq

/-- `cursor.execute(query, params)` succeeding: the statement joins the
current transaction. -/
def cursor_execute (st : DBState) (cmd : Command) : DBState :=
  { st with pending := st.pending ++ [cmd], roundTrips := st.roundTrips + 1 }

/-- `psycopg2.extras.execute_values(cursor, query, values)` succeeding: one
round trip submitting every row of `values` into the current transaction. -/
def execute_values (st : DBState) (query : String) (values : List (List SqlValue)) : DBState :=
  { st with pending := st.pending ++ values.map (fun v => (query, v)),
            roundTrips := st.roundTrips + 1 }

/-- `connection.commit()`: the current transaction becomes visible. -/
def db_commit (st : DBState) : DBState :=
  { st with committed := st.committed ++ st.pending, pending := [],
            roundTrips := st.roundTrips + 1 }

/-- `connection.rollback()`: the current transaction is discarded. -/
def db_rollback (st : DBState) : DBState :=
  { st with pending := [], roundTrips := st.roundTrips + 1 }

/-- `logger.error(...)`. -/
def log_error (st : DBState) : DBState :=
  { st with errorsLogged := st.errorsLogged + 1 }

/-- Oracle for one guarded driver interaction: everything succeeds, the
execute call raises, or the commit raises. -/
inductive ExecOutcome where
  | ok : ExecOutcome
  | failExec : ExecOutcome
  | failCommit : ExecOutcome
  deriving Repr, DecidableEq

/-- `BaseRepository.execute_command`: try execute + commit, return `True`;
on any exception rollback, log the error and return `False`. -/
def execute_command (st : DBState) (query : String) (params : List SqlValue)
    (o : ExecOutcome) : DBState × Bool :=
  match o with
  | .ok => (db_commit (cursor_execute st (query, params)), true)
  | .failExec => (log_error (db_rollback st), false)
  | .failCommit => (log_error (db_rollback (cursor_execute st (query, params))), false)

/-- `BaseRepository.set_entity` delegates to `execute_command`. -/
def set_entity (st : DBState) (query : String) (params : List SqlValue)
    (o : ExecOutcome) : DBState × Bool :=
  execute_command st query params o

/-! ## Query catalog (`queries/queries.py`), statement texts -/

def SET_PULL_REQUEST : String :=
  "INSERT INTO pull_requests (number, repository_full_name, uid, hotkey, github_id, earned_score, title, merged_at, pr_created_at, additions, deletions, commits, author_login, merged_by_login) VALUES (14 placeholders) ON CONFLICT (number, repository_full_name) DO NOTHING"

def BULK_UPSERT_PULL_REQUESTS : String :=
  "INSERT INTO pull_requests (number, repository_full_name, uid, hotkey, github_id, earned_score, title, merged_at, pr_created_at, additions, deletions, commits, author_login, merged_by_login) VALUES ... ON CONFLICT (number, repository_full_name) DO NOTHING"

def BULK_UPSERT_MINERS : String :=
  "INSERT INTO miners (uid, hotkey, github_id) VALUES ... ON CONFLICT (uid, hotkey, github_id) DO NOTHING"

def BULK_UPSERT_REPOSITORIES : String :=
  "INSERT INTO repositories (full_name, name, owner) VALUES ... ON CONFLICT (full_name) DO NOTHING"

/-! ## Row types and mappers (`pull_requests_repository.py`) -/

/-- A row of the plain pull-request queries (RealDictCursor dictionary).
Columns that the mapper reads through `.get`/`or` defaults are optional. -/
structure PullRequestRow where
  number : Int
  repository_full_name : String
  uid : PyIntLike
  hotkey : String
  github_id : String
  title : String
  author_login : String
  merged_at : DateTime
  pr_created_at : DateTime
  earned_score : Option PyFloat
  additions : Option Int
  deletions : Option Int
  commits : Option Int
  merged_by_login : Option String
  name : String
  owner : String
  deriving Repr, DecidableEq

/-- `PullRequestsRepository._map_to_pull_request`. -/
def _map_to_pull_request (row : PullRequestRow) : PullRequest :=
  { number := row.number
    repository_full_name := row.repository_full_name
    uid := row.uid
    hotkey := row.hotkey
    github_id := row.github_id
    title := row.title
    author_login := row.author_login
    merged_at := row.merged_at
    created_at := row.pr_created_at
    earned_score := row.earned_score.getD 0
    additions := row.additions.getD 0
    deletions := row.deletions.getD 0
    commits := row.commits.getD 0
    merged_by_login := row.merged_by_login }

/-- The file-change columns of the joined query; they are jointly NULL when
the LEFT JOIN found no matching `file_changes` row. -/
structure FileChangeCols where
  filename : String
  changes : Int
  file_additions : Int
  file_deletions : Int
  status : String
  patch : Option String
  file_extension : String
  deriving Repr, DecidableEq

/-- A row of `GET_PULL_REQUEST_WITH_FILE_CHANGES` (left outer join). -/
structure PullRequestJoinRow where
  number : Int
  repository_full_name : String
  uid : PyIntLike
  hotkey : String
  github_id : String
  title : String
  author_login : String
  merged_at : DateTime
  pr_created_at : DateTime
  earned_score : Option PyFloat
  additions : Option Int
  deletions : Option Int
  commits : Option Int
  merged_by_login : Option String
  name : String
  owner : String
  fc : Option FileChangeCols
  deriving Repr, DecidableEq

/-- Python truthiness of `row['filename']` in the joined row: false for SQL
NULL and for the empty string. -/
def filenameTruthy (row : PullRequestJoinRow) : Bool :=
  match row.fc with
  | some f => f.filename ≠ ""
  | none => false

/-- One iteration of the mapper's inner loop: build a `FileChange` from a
joined row whose `filename` is truthy, skip the row otherwise. -/
def row_file_change (row : PullRequestJoinRow) : Option FileChange :=
  match row.fc with
  | some f =>
    if f.filename ≠ "" then
      some (mkFileChange row.number row.repository_full_name f.filename f.changes
        f.file_additions f.file_deletions f.status f.patch (some f.file_extension) none)
    else none
  | none => none

/-- `PullRequestsRepository._map_to_pull_request_with_file_changes`. -/
def _map_to_pull_request_with_file_changes (rows : List PullRequestJoinRow) :
    Option PullRequest :=
  match rows with
  | [] => none
  | first_row :: _ =>
    let pull_request : PullRequest :=
      { number := first_row.number
        repository_full_name := first_row.repository_full_name
        uid := first_row.uid
        hotkey := first_row.hotkey
        github_id := first_row.github_id
        title := first_row.title
        author_login := first_row.author_login
        merged_at := first_row.merged_at
        created_at := first_row.pr_created_at
        earned_score := first_row.earned_score.getD 0
        additions := first_row.additions.getD 0
        deletions := first_row.deletions.getD 0
        commits := first_row.commits.getD 0
        merged_by_login := first_row.merged_by_login }
    if filenameTruthy first_row then
      some { pull_request with file_changes := some (rows.filterMap row_file_change) }
    else
      some pull_request

/-! ## Stored tables and the semantics of the joined read -/

/-- A stored row of the `repositories` table. -/
structure RepositoryRow where
  full_name : String
  name : String
  owner : String
  deriving Repr, DecidableEq

/-- A stored row of the `pull_requests` table (column types after storage:
`uid` is a plain integer column). -/
structure StoredPullRequest where
  number : Int
  repository_full_name : String
  uid : Int
  hotkey : String
  github_id : String
  earned_score : PyFloat
  title : String
  merged_at : DateTime
  pr_created_at : DateTime
  additions : Int
  deletions : Int
  commits : Int
  author_login : String
  merged_by_login : Option String
  deriving Repr, DecidableEq

/-- A stored row of the `file_changes` table. -/
structure StoredFileChange where
  pr_number : Int
  repository_full_name : String
  filename : String
  changes : Int
  additions : Int
  deletions : Int
  status : String
  patch : Option String
  file_extension : String
  deriving Repr, DecidableEq

/-- Build one result row of `GET_PULL_REQUEST_WITH_FILE_CHANGES` from a
matched pull-request row, repository row, and optionally matched
file-change row. -/
def joinRow (pr : StoredPullRequest) (r : RepositoryRow)
    (fc : Option StoredFileChange) : PullRequestJoinRow :=
  { number := pr.number
    repository_full_name := pr.repository_full_name
    uid := .plain pr.uid
    hotkey := pr.hotkey
    github_id := pr.github_id
    title := pr.title
    author_login := pr.author_login
    merged_at := pr.merged_at
    pr_created_at := pr.pr_created_at
    earned_score := some pr.earned_score
    additions := some pr.additions
    deletions := some pr.deletions
    commits := some pr.commits
    merged_by_login := pr.merged_by_login
    name := r.name
    owner := r.owner
    fc := fc.map (fun f =>
      { filename := f.filename
        changes := f.changes
        file_additions := f.additions
        file_deletions := f.deletions
        status := f.status
        patch := f.patch
        file_extension := f.file_extension }) }

/-- Result-set semantics of `GET_PULL_REQUEST_WITH_FILE_CHANGES`:
`pull_requests JOIN repositories ON full_name LEFT JOIN file_changes ON
(pr_number, repository_full_name) WHERE number = %s AND
repository_full_name = %s`. -/
def run_get_pull_request_with_file_changes_query
    (pull_requests : List StoredPullRequest) (repositories : List RepositoryRow)
    (file_changes : List StoredFileChange) (pr_number : Int)
    (repository_full_name : String) : List PullRequestJoinRow :=
  (pull_requests.filter (fun pr =>
      decide (pr.number = pr_number ∧ pr.repository_full_name = repository_full_name))).flatMap
    (fun pr =>
      (repositories.filter (fun r => decide (r.full_name = pr.repository_full_name))).flatMap
        (fun r =>
          match file_changes.filter (fun fc =>
              decide (fc.pr_number = pr.number ∧
                fc.repository_full_name = pr.repository_full_name)) with
          | [] => [joinRow pr r none]
          | fcs => fcs.map (fun fc => joinRow pr r (some fc))))

/-- `PullRequestsRepository.get_pull_request_with_file_changes`, with the
stored tables supplying the query's result set. -/
def get_pull_request_with_file_changes
    (pull_requests : List StoredPullRequest) (repositories : List RepositoryRow)
    (file_changes : List StoredFileChange) (pr_number : Int)
    (repository_full_name : String) : Option PullRequest :=
  _map_to_pull_request_with_file_changes
    (run_get_pull_request_with_file_changes_query pull_requests repositories
      file_changes pr_number repository_full_name)

/-! ## Grouped variant (`get_pull_requests_by_repository_with_file_changes`) -/

/-- Insertion-ordered dictionary update, modelling
`if pr_key not in pr_groups: pr_groups[pr_key] = []` followed by
`pr_groups[pr_key].append(result)` on a Python (insertion-ordered) dict. -/
def addToGroups (groups : List (Int × List PullRequestJoinRow)) (k : Int)
    (row : PullRequestJoinRow) : List (Int × List PullRequestJoinRow) :=
  match groups with
  | [] => [(k, [row])]
  | (k', rs) :: rest =>
    if k' = k then (k', rs ++ [row]) :: rest
    else (k', rs) :: addToGroups rest k row

/-- The `pr_groups` dict built by the grouping loop, keyed on
`result['number']`, in insertion order. -/
def pr_groups_dict (results : List PullRequestJoinRow) :
    List (Int × List PullRequestJoinRow) :=
  results.foldl (fun gs result => addToGroups gs result.number result) []

/-- `PullRequestsRepository.get_pull_requests_by_repository_with_file_changes`
applied to the storage-returned result rows of the modified join query. -/
def get_pull_requests_by_repository_with_file_changes
    (results : List PullRequestJoinRow) : List PullRequest :=
  (pr_groups_dict results).filterMap
    (fun g => _map_to_pull_request_with_file_changes g.2)

/-- Modelled from the spec: the distinct elements of a list in first-seen
order. -/
def firstSeen (l : List Int) : List Int :=
  l.foldl (fun acc k => if k ∈ acc then acc else acc ++ [k]) []

/-! ## Pull-request repository write operations -/

/-- The parameter tuple bound by `set_pull_request` and by each row of
`store_pull_requests_bulk`. -/
def pull_request_params (pr : PullRequest) : List SqlValue :=
  [ .int pr.number, .str pr.repository_full_name, bindPyInt pr.uid,
    .str pr.hotkey, .str pr.github_id, .float pr.earned_score, .str pr.title,
    .time pr.merged_at, .time pr.created_at, .int pr.additions,
    .int pr.deletions, .int pr.commits, .str pr.author_login,
    bindOptStr pr.merged_by_login ]

/-- The in-place mutation
`if isinstance(pr.uid, np.integer): pr.uid = pr.uid.item()`. -/
def normalize_uid_inplace (pr : PullRequest) : PullRequest :=
  if pr.uid.isNumpyInteger then { pr with uid := pr.uid.item } else pr

/-- `PullRequestsRepository.set_pull_request`.  Returns the new connection
state, the caller's (possibly mutated) object, and the boolean result. -/
def set_pull_request (st : DBState) (pull_request : PullRequest)
    (o : ExecOutcome) : DBState × PullRequest × Bool :=
  let pull_request := normalize_uid_inplace pull_request
  let r := set_entity st SET_PULL_REQUEST (pull_request_params pull_request) o
  (r.1, pull_request, r.2)

/-- `PullRequestsRepository.store_pull_requests_bulk`.  Returns the new
connection state, the caller's (possibly mutated) list, and the count. -/
def store_pull_requests_bulk (st : DBState) (pull_requests : List PullRequest)
    (o : ExecOutcome) : DBState × List PullRequest × Int :=
  if pull_requests.isEmpty then (st, pull_requests, 0)
  else
    let pull_requests := pull_requests.map normalize_uid_inplace
    let values := pull_requests.map pull_request_params
    match o with
    | .ok =>
      (db_commit (execute_values st BULK_UPSERT_PULL_REQUESTS values),
        pull_requests, values.length)
    | .failExec =>
      (log_error (db_rollback { st with roundTrips := st.roundTrips + 1 }),
        pull_requests, 0)
    | .failCommit =>
      (log_error (db_rollback (execute_values st BULK_UPSERT_PULL_REQUESTS values)),
        pull_requests, 0)

/-! ## Miners repository bulk write -/

/-- The parameter tuple for one miner row. -/
def miner_params (miner : Miner) : List SqlValue :=
  [ .int miner.uid, .str miner.hotkey, .str miner.github_id ]

/-- `MinersRepository.store_miners_bulk`. -/
def store_miners_bulk (st : DBState) (miners : List Miner) (o : ExecOutcome) :
    DBState × Int :=
  if miners.isEmpty then (st, 0)
  else
    let values := miners.map miner_params
    match o with
    | .ok => (db_commit (execute_values st BULK_UPSERT_MINERS values), values.length)
    | .failExec =>
      (log_error (db_rollback { st with roundTrips := st.roundTrips + 1 }), 0)
    | .failCommit =>
      (log_error (db_rollback (execute_values st BULK_UPSERT_MINERS values)), 0)

/-! ## Repositories repository bulk write -/

/-- A full name is kept by the bulk loop iff `full_name.split('/')` has
exactly two parts. -/
def wellFormedFullName (s : String) : Bool :=
  (splitChar '/' s.data).length = 2

/-- The row prepared for one well-formed full name:
`(full_name, parts[1], parts[0])`. -/
def repository_row_params (full_name : String) : List SqlValue :=
  let parts := (splitChar '/' full_name.data).map String.mk
  [ .str full_name, .str (parts.getD 1 ""), .str (parts.getD 0 "") ]

/-- `RepositoriesRepository.store_repositories_bulk` (the Python argument is
a set of strings; the list models its iteration order). -/
def store_repositories_bulk (st : DBState) (repository_full_names : List String)
    (o : ExecOutcome) : DBState × Int :=
  if repository_full_names.isEmpty then (st, 0)
  else
    let values := repository_full_names.filterMap (fun full_name =>
      if wellFormedFullName full_name then some (repository_row_params full_name)
      else none)
    if values.isEmpty then (st, 0)
    else match o with
    | .ok => (db_commit (execute_values st BULK_UPSERT_REPOSITORIES values), values.length)
    | .failExec =>
      (log_error (db_rollback { st with roundTrips := st.roundTrips + 1 }), 0)
    | .failCommit =>
      (log_error (db_rollback (execute_values st BULK_UPSERT_REPOSITORIES values)), 0)

/-! ## Conflict-ignoring upsert semantics (ON CONFLICT DO NOTHING) -/

/-- Apply one value under the ignore policy: skip it if its key is already
present, otherwise insert it and count it as affected. -/
def upsert_ignore_step {α κ : Type} [DecidableEq κ] (key : α → κ)
    (acc : List α × Nat) (v : α) : List α × Nat :=
  if (acc.1.map key).contains (key v) then acc else (acc.1 ++ [v], acc.2 + 1)

/-- Storage semantics of a bulk insert with `ON CONFLICT ... DO NOTHING`:
returns the new table and the number of rows actually affected. -/
def upsert_ignore {α κ : Type} [DecidableEq κ] (key : α → κ)
    (table : List α) (vals : List α) : List α × Nat :=
  vals.foldl (upsert_ignore_step key) (table, 0)

/-- The pull-request natural key declared to storage. -/
def prNaturalKey (pr : StoredPullRequest) : Int × String :=
  (pr.number, pr.repository_full_name)

/-! ## Migration runner (`migrations/migrator.py`) -/

/-- `DatabaseMigrator.get_migration_files`: the hardcoded ordered list. -/
def get_migration_files : List String :=
  ["repositories.sql", "miners.sql", "miner_evaluations.sql",
   "pull_requests.sql", "issues.sql", "file_changes.sql"]

/-- Environment of a migration run: the statements of each script (after the
split on the statement terminator), and an oracle giving, per script, the
index of the first statement whose execution raises (`none` when the whole
script succeeds; reading failures are `some 0` with no statement executed). -/
structure MigrationEnv where
  scripts : String → List String
  failsAt : String → Option Nat

/-- Execute a list of statements sequentially on one cursor. -/
def exec_statements (st : DBState) (stmts : List String) : DBState :=
  stmts.foldl (fun s stmt => cursor_execute s (stmt, [])) st

/-- `DatabaseMigrator.run_migration`: execute the script's statements in one
commit/rollback unit; on failure roll back and log, returning `False`. -/
def run_migration (env : MigrationEnv) (st : DBState) (filename : String) :
    DBState × Bool :=
  let st := { st with attempted := st.attempted ++ [filename] }
  match env.failsAt filename with
  | none => (db_commit (exec_statements st (env.scripts filename)), true)
  | some i =>
    (log_error (db_rollback (exec_statements st ((env.scripts filename).take i))), false)

/-- The loop body of `DatabaseMigrator.migrate` over a remaining list of
script names: stop at the first failing script (logging once more). -/
def migrate_list (env : MigrationEnv) : DBState → List String → DBState × Bool
  | st, [] => (st, true)
  | st, f :: fs =>
    let r := run_migration env st f
    if r.2 then migrate_list env r.1 fs else (log_error r.1, false)

/-- `DatabaseMigrator.migrate`. -/
def migrate (env : MigrationEnv) (st : DBState) : DBState × Bool :=
  migrate_list env st get_migration_files

/-- The state transformer of one successfully-or-not attempted script
(the first component of `run_migration`). -/
def apply_script (env : MigrationEnv) (st : DBState) (filename : String) : DBState :=
  (run_migration env st filename).1

/-! ## Auxiliary predicates and sample data -/

/-- Well-formedness of the grouping dictionary: every group is non-empty and
contains only rows carrying the group's key whose payload satisfies `P`. -/
def GroupsWF (P : PullRequestJoinRow → Prop)
    (gs : List (Int × List PullRequestJoinRow)) : Prop :=
  ∀ g ∈ gs, g.2 ≠ [] ∧ ∀ r ∈ g.2, r.number = g.1 ∧ P r

/-- A concrete stored pull-request row. -/
def sampleStoredPR : StoredPullRequest :=
  { number := 1, repository_full_name := "o/r", uid := 7, hotkey := "hk",
    github_id := "gh", earned_score := 0, title := "t", merged_at := 5,
    pr_created_at := 4, additions := 1, deletions := 2, commits := 3,
    author_login := "a", merged_by_login := none }

/-- A concrete stored repository row matching `sampleStoredPR`. -/
def sampleRepoRow : RepositoryRow := { full_name := "o/r", name := "r", owner := "o" }

/-- A concrete stored file-change row for `sampleStoredPR`. -/
def sampleStoredFC (fn : String) : StoredFileChange :=
  { pr_number := 1, repository_full_name := "o/r", filename := fn, changes := 1,
    additions := 1, deletions := 0, status := "added", patch := none,
    file_extension := "py" }

/-- A concrete pull-request entity with a plain-int uid. -/
def samplePullRequest : PullRequest :=
  { number := 1, repository_full_name := "o/r", uid := .plain 7, hotkey := "hk",
    github_id := "gh", title := "t", author_login := "a", merged_at := 5,
    created_at := 4 }

/-- A concrete pull-request entity whose uid arrives as a numpy integer box. -/
def sampleNumpyPullRequest : PullRequest :=
  { number := 2, repository_full_name := "o/r", uid := .numpy 7, hotkey := "hk",
    github_id := "gh", title := "t2", author_login := "a", merged_at := 6,
    created_at := 5 }

/-- A concrete miner entity. -/
def sampleMiner : Miner := { uid := 3, hotkey := "hk", github_id := "gh" }

/-- A concrete joined result row (with or without file-change columns). -/
def sampleJoinRow (n : Int) (fn : Option String) : PullRequestJoinRow :=
  { number := n, repository_full_name := "o/r", uid := .plain 7, hotkey := "hk",
    github_id := "gh", title := "t", author_login := "a", merged_at := 5,
    pr_created_at := 4, earned_score := some 0, additions := some 1,
    deletions := some 2, commits := some 3, merged_by_login := none,
    name := "r", owner := "o",
    fc := fn.map (fun f =>
      { filename := f, changes := 1, file_additions := 1, file_deletions := 0,
        status := "added", patch := none, file_extension := "py" }) }

/-- A concrete migration environment in which the fourth script's first
statement raises and every other script succeeds. -/
def sampleFailEnv : MigrationEnv :=
  { scripts := fun _ => ["CREATE TABLE IF NOT EXISTS x (a INT)"],
    failsAt := fun f => if f = "pull_requests.sql" then some 0 else none }

/-- A concrete evaluation carrying a stored PR count. -/
def sampleEvalStored : MinerEvaluation :=
  { uid := 1, hotkey := "hk", pull_requests := [samplePullRequest],
    stored_total_prs := some 5 }

/-- A concrete evaluation with no stored PR count. -/
def sampleEvalComputed : MinerEvaluation :=
  { uid := 1, hotkey := "hk", pull_requests := [samplePullRequest],
    stored_total_prs := none }

/-! ## Helper lemmas -/

theorem splitChar_ne_nil (sep : Char) (l : List Char) : splitChar sep l ≠ [] := by
  induction l with
  | nil => simp [splitChar]
  | cons c cs ih =>
    simp only [splitChar]
    split
    · exact List.cons_ne_nil _ _
    · split
      · exact List.cons_ne_nil _ _
      · exact List.cons_ne_nil _ _

theorem splitChar_of_not_mem {sep : Char} {l : List Char} (h : sep ∉ l) :
    splitChar sep l = [l] := by
  induction l with
  | nil => rfl
  | cons c cs ih =>
    have hc : ¬ c = sep := fun e => h (e ▸ List.mem_cons_self c cs)
    have hcs : sep ∉ cs := fun m => h (List.mem_cons_of_mem _ m)
    simp [splitChar, hc, ih hcs]

theorem one_lt_splitChar_length {sep : Char} {l : List Char} (h : sep ∈ l) :
    1 < (splitChar sep l).length := by
  induction l with
  | nil => cases h
  | cons c cs ih =>
    by_cases hc : c = sep
    · cases hsc : splitChar sep cs with
      | nil => exact absurd hsc (splitChar_ne_nil sep cs)
      | cons a t => simp [splitChar, hc, hsc]
    · have hcs : sep ∈ cs := by
        rcases List.mem_cons.mp h with h1 | h2
        · exact absurd h1.symm hc
        · exact h2
      have h2 := ih hcs
      cases hsc : splitChar sep cs with
      | nil => exact absurd hsc (splitChar_ne_nil sep cs)
      | cons a t =>
        rw [hsc] at h2
        simp only [List.length_cons] at h2
        simp [splitChar, hc, hsc]
        omega

theorem lastElemD_cons_cons {α : Type} (a b : α) (t : List α) (d : α) :
    lastElemD (a :: b :: t) d = lastElemD (b :: t) d := rfl

theorem lastElemD_splitChar {sep : Char} {l : List Char} (h : sep ∈ l) :
    lastElemD (splitChar sep l) [] = suffixAfterLast sep l := by
  induction l with
  | nil => cases h
  | cons c cs ih =>
    by_cases hcs : sep ∈ cs
    · have hr := ih hcs
      by_cases hc : c = sep
      · cases hsc : splitChar sep cs with
        | nil => exact absurd hsc (splitChar_ne_nil sep cs)
        | cons a t =>
          rw [hsc] at hr
          simp [splitChar, hc, hsc, lastElemD_cons_cons, hr, suffixAfterLast, hcs]
      · have hlen := one_lt_splitChar_length hcs
        cases hsc : splitChar sep cs with
        | nil => exact absurd hsc (splitChar_ne_nil sep cs)
        | cons a t =>
          rw [hsc] at hlen hr
          cases t with
          | nil => simp at hlen
          | cons b t' =>
            rw [lastElemD_cons_cons] at hr
            simp [splitChar, hc, hsc, lastElemD_cons_cons, hr, suffixAfterLast, hcs]
    · have hc : c = sep := by
        rcases List.mem_cons.mp h with h1 | h2
        · exact h1.symm
        · exact absurd h2 hcs
      simp [splitChar, hc, splitChar_of_not_mem hcs, suffixAfterLast, hcs, lastElemD]

theorem normalize_uid_inplace_numpy {pr : PullRequest} {n : Int}
    (h : pr.uid = .numpy n) :
    normalize_uid_inplace pr = { pr with uid := .plain n } := by
  simp [normalize_uid_inplace, h, PyIntLike.isNumpyInteger, PyIntLike.item]

/-! ## Claim theorems -/

/-- C7: a FileChange constructed without an explicit file_extension computes
it at construction as the lowercase suffix of the filename after its last
dot, and as the empty string when the filename contains no dot; in
particular filename "src/main.py" yields "py" and "Makefile" yields "". -/
theorem C7_file_extension_derivation :
    (∀ (pr_number : Int) (repository_full_name filename : String)
       (changes additions deletions : Int) (status : String)
       (patch : Option String) (id : Option Int),
        (mkFileChange pr_number repository_full_name filename changes additions
            deletions status patch none id).file_extension =
          some (if '.' ∈ filename.data
            then pyLower (String.mk (suffixAfterLast '.' filename.data))
            else "")) ∧
    (mkFileChange 1 "o/r" "src/main.py" 10 8 2 "modified" none none
        none).file_extension = some "py" ∧
    (mkFileChange 2 "o/r" "Makefile" 3 3 0 "added" none none
        none).file_extension = some "" := by
  refine ⟨?_, by decide, by decide⟩
  intro pr_number repository_full_name filename changes additions deletions status patch id
  simp only [mkFileChange, FileChange.post_init, FileChange.calculate_file_extension]
  by_cases h : '.' ∈ filename.data
  · simp [h, lastElemD_splitChar h]
  · simp [h]

/-- C8: MinerEvaluation.total_prs returns stored_total_prs whenever that
field is present (not None), and otherwise the length of the in-memory
pull_requests list. -/
theorem C8_total_prs_source_of_truth :
    ∀ (e : MinerEvaluation),
      (∀ n : Int, e.stored_total_prs = some n → e.total_prs = n) ∧
      (e.stored_total_prs = none → e.total_prs = e.pull_requests.length) := by
  intro e
  constructor
  · intro n h
    simp [MinerEvaluation.total_prs, h]
  · intro h
    simp [MinerEvaluation.total_prs, h]

theorem C8_total_prs_source_of_truth_witness :
    sampleEvalStored.stored_total_prs = some 5 ∧ sampleEvalStored.total_prs = 5 ∧
    sampleEvalComputed.stored_total_prs = none ∧ sampleEvalComputed.total_prs = 1 :=
  ⟨rfl, (C8_total_prs_source_of_truth sampleEvalStored).1 5 rfl, rfl,
   (C8_total_prs_source_of_truth sampleEvalComputed).2 rfl⟩

/-- C3: execute_command commits and returns true on success; on any
execution error it rolls back that call's unit of work, logs the error and
returns false, never leaving a half-committed statement visible. -/
theorem C3_execute_command_contract :
    ∀ (st : DBState) (query : String) (params : List SqlValue) (o : ExecOutcome),
      st.pending = [] →
      (o = .ok →
        (execute_command st query params o).2 = true ∧
        (execute_command st query params o).1.committed =
          st.committed ++ [(query, params)] ∧
        (execute_command st query params o).1.pending = []) ∧
      (o ≠ .ok →
        (execute_command st query params o).2 = false ∧
        (execute_command st query params o).1.committed = st.committed ∧
        (execute_command st query params o).1.pending = [] ∧
        (execute_command st query params o).1.errorsLogged =
          st.errorsLogged + 1) := by
  intro st query params o hp
  constructor
  · rintro rfl
    simp [execute_command, db_commit, cursor_execute, hp]
  · intro ho
    cases o with
    | ok => exact absurd rfl ho
    | failExec => simp [execute_command, db_rollback, log_error]
    | failCommit => simp [execute_command, db_rollback, log_error, cursor_execute]

theorem C3_execute_command_contract_witness :
    (DBState.pending {} = [] ∧ (ExecOutcome.ok : ExecOutcome) = .ok ∧
      (execute_command {} "INSERT" [.int 1] .ok).2 = true ∧
      (execute_command {} "INSERT" [.int 1] .ok).1.committed =
        [("INSERT", [.int 1])]) ∧
    ((ExecOutcome.failExec : ExecOutcome) ≠ .ok ∧
      (execute_command {} "INSERT" [.int 1] .failExec).2 = false ∧
      (execute_command {} "INSERT" [.int 1] .failExec).1.committed = []) :=
  ⟨⟨rfl, rfl,
    ((C3_execute_command_contract {} "INSERT" [.int 1] .ok rfl).1 rfl).1,
    by simpa using
      ((C3_execute_command_contract {} "INSERT" [.int 1] .ok rfl).1 rfl).2.1⟩,
   ⟨by decide,
    ((C3_execute_command_contract {} "INSERT" [.int 1] .failExec rfl).2
      (by decide)).1,
    by simpa using
      ((C3_execute_command_contract {} "INSERT" [.int 1] .failExec rfl).2
        (by decide)).2.1⟩⟩

/-- C9: set_pull_request and store_pull_requests_bulk mutate the caller's
PullRequest objects in place: a numpy-integer uid is overwritten with the
equivalent plain int, and every other field is left unchanged. -/
theorem C9_in_place_uid_mutation :
    ∀ (st : DBState) (pr : PullRequest) (prs : List PullRequest)
      (o : ExecOutcome) (n : Int),
      (set_pull_request st pr o).2.1 = normalize_uid_inplace pr ∧
      (store_pull_requests_bulk st prs o).2.1 = prs.map normalize_uid_inplace ∧
      (pr.uid = .numpy n → (normalize_uid_inplace pr).uid = .plain n) ∧
      (normalize_uid_inplace pr).number = pr.number ∧
      (normalize_uid_inplace pr).repository_full_name = pr.repository_full_name ∧
      (normalize_uid_inplace pr).hotkey = pr.hotkey ∧
      (normalize_uid_inplace pr).github_id = pr.github_id ∧
      (normalize_uid_inplace pr).title = pr.title ∧
      (normalize_uid_inplace pr).author_login = pr.author_login ∧
      (normalize_uid_inplace pr).merged_at = pr.merged_at ∧
      (normalize_uid_inplace pr).created_at = pr.created_at ∧
      (normalize_uid_inplace pr).earned_score = pr.earned_score ∧
      (normalize_uid_inplace pr).additions = pr.additions ∧
      (normalize_uid_inplace pr).deletions = pr.deletions ∧
      (normalize_uid_inplace pr).commits = pr.commits ∧
      (normalize_uid_inplace pr).merged_by_login = pr.merged_by_login ∧
      (normalize_uid_inplace pr).file_changes = pr.file_changes ∧
      (normalize_uid_inplace pr).issues = pr.issues := by
  intro st pr prs o n
  refine ⟨rfl, ?_, ?_, ?_⟩
  · by_cases h : prs.isEmpty
    · rw [List.isEmpty_iff] at h
      subst h
      cases o <;> rfl
    · simp only [store_pull_requests_bulk, h, Bool.false_eq_true, if_false]
      cases o <;> rfl
  · intro h
    rw [normalize_uid_inplace_numpy h]
  · by_cases h : pr.uid.isNumpyInteger <;>
      simp [normalize_uid_inplace, h]

theorem C9_in_place_uid_mutation_witness :
    sampleNumpyPullRequest.uid = PyIntLike.numpy 7 ∧
    (normalize_uid_inplace sampleNumpyPullRequest).uid = PyIntLike.plain 7 :=
  ⟨rfl,
    (C9_in_place_uid_mutation {} sampleNumpyPullRequest [] .ok 7).2.2.1 rfl⟩

/-- C5: a numpy-integer uid is normalized to a plain int of equal value
before binding to the SQL statement parameters, both in set_pull_request and
in store_pull_requests_bulk, and the normalization happens at the
repository boundary, not inside the row-to-entity mapper. -/
theorem C5_uid_normalized_before_binding :
    ∀ (st : DBState) (pr : PullRequest) (prs : List PullRequest) (n : Int),
      pr.uid = .numpy n →
      st.pending = [] →
      ((set_pull_request st pr .ok).1.committed = st.committed ++
        [(SET_PULL_REQUEST, pull_request_params { pr with uid := .plain n })] ∧
       (pull_request_params (normalize_uid_inplace pr)).getD 2 .null = .int n ∧
       (store_pull_requests_bulk st (pr :: prs) .ok).1.committed = st.committed ++
         ((pr :: prs).map normalize_uid_inplace).map
           (fun q => (BULK_UPSERT_PULL_REQUESTS, pull_request_params q)) ∧
       (∀ row : PullRequestRow, (_map_to_pull_request row).uid = row.uid)) := by
  intro st pr prs n h hp
  refine ⟨?_, ?_, ?_, fun _ => rfl⟩
  · simp [set_pull_request, set_entity, execute_command, db_commit,
      cursor_execute, hp, normalize_uid_inplace_numpy h]
  · rw [normalize_uid_inplace_numpy h]
    rfl
  · simp only [store_pull_requests_bulk, List.isEmpty_cons, Bool.false_eq_true,
      if_false]
    simp [db_commit, execute_values, hp, List.map_map, Function.comp]

theorem C5_uid_normalized_before_binding_witness :
    sampleNumpyPullRequest.uid = PyIntLike.numpy 7 ∧
    DBState.pending {} = [] ∧
    (pull_request_params (normalize_uid_inplace sampleNumpyPullRequest)).getD 2
      .null = .int 7 :=
  ⟨rfl, rfl,
    ((C5_uid_normalized_before_binding {} sampleNumpyPullRequest [] 7 rfl
      rfl).2.1)⟩

theorem upsert_ignore_foldl_le {α κ : Type} [DecidableEq κ] (key : α → κ)
    (vals : List α) (acc : List α × Nat) :
    (vals.foldl (upsert_ignore_step key) acc).2 ≤ acc.2 + vals.length := by
  induction vals generalizing acc with
  | nil => simp
  | cons v t ih =>
    have h1 : (upsert_ignore_step key acc v).2 ≤ acc.2 + 1 := by
      unfold upsert_ignore_step
      split <;> simp
    have h2 := ih (upsert_ignore_step key acc v)
    simp only [List.foldl_cons, List.length_cons]
    omega

/-- C4: each store-bulk operation returns the count of rows submitted to
storage, an upper bound on affected rows under the conflict-ignore policy,
and empty input returns 0 without any round trip to the connection. -/
theorem C4_bulk_submitted_count :
    ∀ (st : DBState) (prs : List PullRequest) (miners : List Miner)
      (o : ExecOutcome) (table rows : List StoredPullRequest),
      (prs ≠ [] → o = .ok →
        (store_pull_requests_bulk st prs o).2.2 = prs.length) ∧
      store_pull_requests_bulk st [] o = (st, [], 0) ∧
      (miners ≠ [] → o = .ok →
        (store_miners_bulk st miners o).2 = miners.length) ∧
      store_miners_bulk st [] o = (st, 0) ∧
      (upsert_ignore prNaturalKey table rows).2 ≤ rows.length := by
  intro st prs miners o table rows
  refine ⟨?_, by cases o <;> rfl, ?_, by cases o <;> rfl, ?_⟩
  · intro h ho
    subst ho
    have he : prs.isEmpty = false := by
      cases prs with
      | nil => exact absurd rfl h
      | cons a t => rfl
    simp [store_pull_requests_bulk, he]
  · intro h ho
    subst ho
    have he : miners.isEmpty = false := by
      cases miners with
      | nil => exact absurd rfl h
      | cons a t => rfl
    simp [store_miners_bulk, he]
  · simpa using upsert_ignore_foldl_le prNaturalKey rows (table, 0)

theorem C4_bulk_submitted_count_witness :
    ([samplePullRequest] ≠ ([] : List PullRequest) ∧
      (ExecOutcome.ok : ExecOutcome) = .ok ∧
      (store_pull_requests_bulk {} [samplePullRequest] .ok).2.2 = 1) ∧
    ([sampleMiner] ≠ ([] : List Miner) ∧
      (store_miners_bulk {} [sampleMiner] .ok).2 = 1) ∧
    store_pull_requests_bulk {} [] .ok = ({}, [], 0) := by
  refine ⟨⟨by decide, rfl, ?_⟩, ⟨by decide, ?_⟩, ?_⟩
  · simpa using
      (C4_bulk_submitted_count {} [samplePullRequest] [sampleMiner] .ok [] []).1
        (by decide) rfl
  · simpa using
      (C4_bulk_submitted_count {} [samplePullRequest] [sampleMiner] .ok [] []).2.2.1
        (by decide) rfl
  · exact (C4_bulk_submitted_count {} [samplePullRequest] [sampleMiner] .ok [] []).2.1

theorem filterMap_guard_eq_map_filter {α β : Type} (p : α → Bool) (g : α → β)
    (l : List α) :
    l.filterMap (fun a => if p a then some (g a) else none) =
      (l.filter p).map g := by
  induction l with
  | nil => rfl
  | cons a t ih =>
    by_cases h : p a <;>
      simp [List.filterMap_cons, List.filter_cons, h, ih]

/-- C10: store_repositories_bulk silently excludes names not splitting on
'/' into exactly two parts: they are neither submitted nor counted and no
error is signalled, and when every name is malformed (or the input is
empty) it returns 0 without contacting storage. -/
theorem C10_malformed_names_excluded :
    ∀ (st : DBState) (repository_full_names : List String) (o : ExecOutcome),
      (repository_full_names.filter wellFormedFullName ≠ [] → o = .ok →
        (store_repositories_bulk st repository_full_names o).2 =
          (repository_full_names.filter wellFormedFullName).length ∧
        (st.pending = [] →
          (store_repositories_bulk st repository_full_names o).1.committed =
            st.committed ++ (repository_full_names.filter wellFormedFullName).map
              (fun full_name => (BULK_UPSERT_REPOSITORIES,
                repository_row_params full_name)))) ∧
      (repository_full_names.filter wellFormedFullName = [] →
        store_repositories_bulk st repository_full_names o = (st, 0)) := by
  intro st names o
  have hv : names.filterMap (fun full_name =>
      if wellFormedFullName full_name then some (repository_row_params full_name)
      else none) = (names.filter wellFormedFullName).map repository_row_params :=
    filterMap_guard_eq_map_filter _ _ names
  constructor
  · intro h ho
    subst ho
    have hne : names ≠ [] := by
      intro e
      subst e
      exact h rfl
    have he : names.isEmpty = false := by
      cases names with
      | nil => exact absurd rfl hne
      | cons a t => rfl
    have hve : ((names.filter wellFormedFullName).map repository_row_params).isEmpty
        = false := by
      cases hf : names.filter wellFormedFullName with
      | nil => exact absurd hf h
      | cons a t => simp [hf]
    constructor
    · simp [store_repositories_bulk, he, hv, hve]
    · intro hp
      simp [store_repositories_bulk, he, hv, hve, db_commit, execute_values, hp,
        List.map_map, Function.comp]
  · intro h
    by_cases he : names.isEmpty
    · rw [List.isEmpty_iff] at he
      subst he
      rfl
    · have he' : names.isEmpty = false := by simpa using he
      simp [store_repositories_bulk, he', hv, h]

theorem C10_malformed_names_excluded_witness :
    (["o/r", "bad", "a/b/c", ""].filter wellFormedFullName ≠ [] ∧
      (store_repositories_bulk {} ["o/r", "bad", "a/b/c", ""] .ok).2 = 1) ∧
    (["bad", "a/b/c"].filter wellFormedFullName = [] ∧
      store_repositories_bulk {} ["bad", "a/b/c"] .ok = ({}, 0)) := by
  refine ⟨⟨by decide, ?_⟩, ⟨by decide, ?_⟩⟩
  · have h := ((C10_malformed_names_excluded {} ["o/r", "bad", "a/b/c", ""]
      .ok).1 (by decide) rfl).1
    simpa using h
  · exact (C10_malformed_names_excluded {} ["bad", "a/b/c"] .ok).2 (by decide)

/-- C1 counterexample: with one stored PR (and its repository row) and zero
stored file changes, the joined read returns the PullRequest with
`file_changes = none` — not with an empty list, contradicting the claim. -/
theorem C1_counterexample :
    (get_pull_request_with_file_changes [sampleStoredPR] [sampleRepoRow] []
        1 "o/r").map PullRequest.file_changes = some none ∧
    (get_pull_request_with_file_changes [sampleStoredPR] [sampleRepoRow] []
        1 "o/r").map PullRequest.file_changes ≠
      some (some ([] : List FileChange)) := by
  constructor
  · rfl
  · decide

/-- C1 (amended): the joined read returns None when no such PR is stored;
when the PR (and its repository row) exists but has zero stored file
changes, it returns the PullRequest with `file_changes` left unattached
(None) — so "no PR" (None) and "PR with no children" (a PullRequest whose
file-change list is absent) remain distinguishable. -/
theorem C1_absent_vs_empty :
    ∀ (prs : List StoredPullRequest) (repos : List RepositoryRow)
      (fcs : List StoredFileChange) (pr_number : Int) (rfn : String)
      (pr : StoredPullRequest) (r : RepositoryRow),
      (prs.filter (fun q =>
          decide (q.number = pr_number ∧ q.repository_full_name = rfn)) = [] →
        get_pull_request_with_file_changes prs repos fcs pr_number rfn = none) ∧
      (prs.filter (fun q =>
          decide (q.number = pr_number ∧ q.repository_full_name = rfn)) = [pr] →
       repos.filter (fun x => decide (x.full_name = pr.repository_full_name))
          = [r] →
       fcs.filter (fun fc => decide (fc.pr_number = pr.number ∧
          fc.repository_full_name = pr.repository_full_name)) = [] →
       ∃ p, get_pull_request_with_file_changes prs repos fcs pr_number rfn
            = some p ∧
         p.file_changes = none ∧ p.number = pr.number ∧
         p.repository_full_name = pr.repository_full_name) := by
  intro prs repos fcs pr_number rfn pr r
  constructor
  · intro h
    unfold get_pull_request_with_file_changes
      run_get_pull_request_with_file_changes_query
    rw [h]
    rfl
  · intro h1 h2 h3
    unfold get_pull_request_with_file_changes
      run_get_pull_request_with_file_changes_query
    rw [h1]
    simp only [List.flatMap_cons, List.flatMap_nil, List.append_nil]
    rw [h2]
    simp only [List.flatMap_cons, List.flatMap_nil, List.append_nil]
    rw [h3]
    exact ⟨_, rfl, rfl, rfl, rfl⟩

theorem C1_absent_vs_empty_witness :
    (([] : List StoredPullRequest).filter (fun q =>
        decide (q.number = 1 ∧ q.repository_full_name = "o/r")) = [] ∧
      get_pull_request_with_file_changes [] [sampleRepoRow] [] 1 "o/r" = none) ∧
    ([sampleStoredPR].filter (fun q =>
        decide (q.number = 1 ∧ q.repository_full_name = "o/r"))
        = [sampleStoredPR] ∧
      ∃ p, get_pull_request_with_file_changes [sampleStoredPR] [sampleRepoRow]
          [] 1 "o/r" = some p ∧
        p.file_changes = none ∧ p.number = sampleStoredPR.number ∧
        p.repository_full_name = sampleStoredPR.repository_full_name) := by
  refine ⟨⟨by decide, ?_⟩, ⟨by decide, ?_⟩⟩
  · exact (C1_absent_vs_empty [] [sampleRepoRow] [] 1 "o/r" sampleStoredPR
      sampleRepoRow).1 (by decide)
  · exact (C1_absent_vs_empty [sampleStoredPR] [sampleRepoRow] [] 1 "o/r"
      sampleStoredPR sampleRepoRow).2 (by decide) (by decide) (by decide)

theorem addToGroups_map_fst (gs : List (Int × List PullRequestJoinRow))
    (k : Int) (row : PullRequestJoinRow) :
    (addToGroups gs k row).map Prod.fst =
      if k ∈ gs.map Prod.fst then gs.map Prod.fst
      else gs.map Prod.fst ++ [k] := by
  induction gs with
  | nil => simp [addToGroups]
  | cons g rest ih =>
    obtain ⟨k', rs⟩ := g
    by_cases h : k' = k
    · subst h
      simp [addToGroups]
    · have hne : ¬ k = k' := fun e => h e.symm
      simp only [addToGroups, h, if_false, List.map_cons, ih, List.mem_cons, hne,
        false_or]
      by_cases hm : k ∈ rest.map Prod.fst <;> simp [hm]

theorem pr_groups_fold_map_fst (l : List PullRequestJoinRow)
    (gs : List (Int × List PullRequestJoinRow)) :
    (l.foldl (fun gs r => addToGroups gs r.number r) gs).map Prod.fst =
      (l.map PullRequestJoinRow.number).foldl
        (fun acc k => if k ∈ acc then acc else acc ++ [k])
        (gs.map Prod.fst) := by
  induction l generalizing gs with
  | nil => rfl
  | cons r t ih =>
    simp only [List.foldl_cons, List.map_cons]
    rw [ih, addToGroups_map_fst]

theorem addToGroups_wf {P : PullRequestJoinRow → Prop}
    {gs : List (Int × List PullRequestJoinRow)} (hg : GroupsWF P gs)
    {row : PullRequestJoinRow} (hrow : P row) :
    GroupsWF P (addToGroups gs row.number row) := by
  induction gs with
  | nil =>
    intro g hgm
    simp only [addToGroups, List.mem_singleton] at hgm
    subst hgm
    refine ⟨by simp, ?_⟩
    intro r hr
    simp only [List.mem_singleton] at hr
    subst hr
    exact ⟨rfl, hrow⟩
  | cons g0 rest ih =>
    obtain ⟨k', rs⟩ := g0
    have hhead := hg (k', rs) (List.mem_cons_self _ _)
    have hrest : GroupsWF P rest := fun g hgm => hg g (List.mem_cons_of_mem _ hgm)
    by_cases h : k' = row.number
    · intro g hgm
      simp only [addToGroups, h, if_pos rfl] at hgm
      rcases List.mem_cons.mp hgm with rfl | hgm'
      · refine ⟨by simp, ?_⟩
        intro r hr
        rcases List.mem_append.mp hr with hr' | hr'
        · exact ⟨((hhead.2 r hr').1).trans h, (hhead.2 r hr').2⟩
        · simp only [List.mem_singleton] at hr'
          subst hr'
          exact ⟨rfl, hrow⟩
      · exact hrest g hgm'
    · intro g hgm
      simp only [addToGroups, h, if_false] at hgm
      rcases List.mem_cons.mp hgm with rfl | hgm'
      · exact hhead
      · exact ih hrest g hgm'

theorem pr_groups_fold_wf {P : PullRequestJoinRow → Prop}
    (l : List PullRequestJoinRow) (hl : ∀ r ∈ l, P r)
    (gs : List (Int × List PullRequestJoinRow)) (hg : GroupsWF P gs) :
    GroupsWF P (l.foldl (fun gs r => addToGroups gs r.number r) gs) := by
  induction l generalizing gs with
  | nil => exact hg
  | cons r t ih =>
    exact ih (fun x hx => hl x (List.mem_cons_of_mem _ hx)) _
      (addToGroups_wf hg (hl r (List.mem_cons_self _ _)))

theorem map_with_fc_cons (first : PullRequestJoinRow)
    (rest : List PullRequestJoinRow) :
    ∃ p, _map_to_pull_request_with_file_changes (first :: rest) = some p ∧
      p.number = first.number ∧
      p.repository_full_name = first.repository_full_name := by
  unfold _map_to_pull_request_with_file_changes
  by_cases h : filenameTruthy first
  · simp only [h, if_true]
    exact ⟨_, rfl, rfl, rfl⟩
  · simp only [h, Bool.false_eq_true, if_false]
    exact ⟨_, rfl, rfl, rfl⟩

theorem filterMap_groups_spec (rfn : String)
    (gs : List (Int × List PullRequestJoinRow))
    (hg : GroupsWF (fun r => r.repository_full_name = rfn) gs) :
    ((gs.filterMap (fun g => _map_to_pull_request_with_file_changes g.2)).map
        PullRequest.number = gs.map Prod.fst) ∧
      ∀ p ∈ gs.filterMap (fun g => _map_to_pull_request_with_file_changes g.2),
        p.repository_full_name = rfn := by
  induction gs with
  | nil => exact ⟨rfl, by simp⟩
  | cons g rest ih =>
    obtain ⟨k, rs⟩ := g
    have hhead := hg (k, rs) (List.mem_cons_self _ _)
    have hrest : GroupsWF (fun r => r.repository_full_name = rfn) rest :=
      fun g hgm => hg g (List.mem_cons_of_mem _ hgm)
    obtain ⟨ih1, ih2⟩ := ih hrest
    cases rs with
    | nil => exact absurd rfl hhead.1
    | cons first t =>
      obtain ⟨p, hp, hnum, hrfn⟩ := map_with_fc_cons first t
      have hfirst := hhead.2 first (List.mem_cons_self _ _)
      constructor
      · simp only [List.filterMap_cons, hp, List.map_cons, ih1, hnum]
        rw [hfirst.1]
      · intro q hq
        simp only [List.filterMap_cons, hp] at hq
        rcases List.mem_cons.mp hq with rfl | hq'
        · rw [hrfn]
          exact hfirst.2
        · exact ih2 q hq'

/-- C6: the grouped joined read groups the storage-returned result rows by
pull-request identity and returns the reconstructed PullRequests in the
first-seen order of distinct PR identities within the row sequence. -/
theorem C6_grouping_preserves_first_seen_order :
    ∀ (results : List PullRequestJoinRow) (rfn : String),
      (∀ r ∈ results, r.repository_full_name = rfn) →
      ((get_pull_requests_by_repository_with_file_changes results).map
          PullRequest.number
        = firstSeen (results.map PullRequestJoinRow.number)) ∧
      ∀ p ∈ get_pull_requests_by_repository_with_file_changes results,
        p.repository_full_name = rfn := by
  intro results rfn h
  have hwf : GroupsWF (fun r => r.repository_full_name = rfn)
      (pr_groups_dict results) :=
    pr_groups_fold_wf results h [] (by intro g hg; cases hg)
  obtain ⟨h1, h2⟩ := filterMap_groups_spec rfn _ hwf
  refine ⟨?_, h2⟩
  rw [show get_pull_requests_by_repository_with_file_changes results =
      (pr_groups_dict results).filterMap
        (fun g => _map_to_pull_request_with_file_changes g.2) from rfl, h1]
  simpa [firstSeen, pr_groups_dict] using pr_groups_fold_map_fst results []

theorem C6_grouping_preserves_first_seen_order_witness :
    (∀ r ∈ [sampleJoinRow 3 (some "a.py"), sampleJoinRow 1 none,
        sampleJoinRow 3 (some "b.py"), sampleJoinRow 2 (some "c.py")],
      r.repository_full_name = "o/r") ∧
    (get_pull_requests_by_repository_with_file_changes
        [sampleJoinRow 3 (some "a.py"), sampleJoinRow 1 none,
         sampleJoinRow 3 (some "b.py"), sampleJoinRow 2 (some "c.py")]).map
      PullRequest.number = [3, 1, 2] := by
  refine ⟨by decide, ?_⟩
  have h := (C6_grouping_preserves_first_seen_order
    [sampleJoinRow 3 (some "a.py"), sampleJoinRow 1 none,
     sampleJoinRow 3 (some "b.py"), sampleJoinRow 2 (some "c.py")] "o/r"
    (by decide)).1
  rw [h]
  decide

theorem exec_statements_fields (stmts : List String) (st : DBState) :
    (exec_statements st stmts).committed = st.committed ∧
    (exec_statements st stmts).attempted = st.attempted ∧
    (exec_statements st stmts).errorsLogged = st.errorsLogged ∧
    (exec_statements st stmts).pending =
      st.pending ++ stmts.map (fun s => (s, ([] : List SqlValue))) := by
  induction stmts generalizing st with
  | nil => simp [exec_statements]
  | cons s t ih =>
    have h := ih (cursor_execute st (s, []))
    simp only [exec_statements, List.foldl_cons] at h ⊢
    simpa [cursor_execute] using h

theorem run_migration_attempted (env : MigrationEnv) (st : DBState)
    (filename : String) :
    (run_migration env st filename).1.attempted = st.attempted ++ [filename] := by
  unfold run_migration
  cases h : env.failsAt filename with
  | none =>
    simp [db_commit, (exec_statements_fields _ _).2.1]
  | some i =>
    simp [db_rollback, log_error, (exec_statements_fields _ _).2.1]

theorem run_migration_ok {env : MigrationEnv} {f : String}
    (h : env.failsAt f = none) (st : DBState) :
    (run_migration env st f).2 = true := by
  unfold run_migration
  rw [h]

theorem apply_script_fail {env : MigrationEnv} {f : String} {i : Nat}
    (h : env.failsAt f = some i) (st : DBState) :
    (apply_script env st f).pending = [] ∧
    (apply_script env st f).committed = st.committed ∧
    (apply_script env st f).errorsLogged = st.errorsLogged + 1 := by
  unfold apply_script run_migration
  rw [h]
  simp [db_rollback, log_error, (exec_statements_fields _ _).1,
    (exec_statements_fields _ _).2.2.1]

theorem apply_script_ok {env : MigrationEnv} {f : String}
    (h : env.failsAt f = none) (st : DBState) (hp : st.pending = []) :
    (apply_script env st f).pending = [] ∧
    (apply_script env st f).committed =
      st.committed ++ (env.scripts f).map (fun s => (s, ([] : List SqlValue))) ∧
    (apply_script env st f).errorsLogged = st.errorsLogged := by
  unfold apply_script run_migration
  rw [h]
  have he := exec_statements_fields (env.scripts f)
    { st with attempted := st.attempted ++ [f] }
  refine ⟨rfl, ?_, ?_⟩
  · show (db_commit (exec_statements { st with attempted := st.attempted ++ [f] }
      (env.scripts f))).committed = _
    simp only [db_commit]
    rw [he.1, he.2.2.2]
    simp [hp]
  · show (db_commit (exec_statements { st with attempted := st.attempted ++ [f] }
      (env.scripts f))).errorsLogged = _
    simp only [db_commit]
    exact he.2.2.1

theorem foldl_apply_script_attempted (env : MigrationEnv) (done : List String)
    (st : DBState) :
    (done.foldl (apply_script env) st).attempted = st.attempted ++ done := by
  induction done generalizing st with
  | nil => simp
  | cons g t ih =>
    simp only [List.foldl_cons]
    rw [ih]
    rw [show (apply_script env st g).attempted = st.attempted ++ [g] from
      run_migration_attempted env st g]
    simp

theorem foldl_apply_script_ok (env : MigrationEnv) (done : List String)
    (hnone : ∀ g ∈ done, env.failsAt g = none) (st : DBState)
    (hp : st.pending = []) :
    (done.foldl (apply_script env) st).pending = [] ∧
    (done.foldl (apply_script env) st).committed = st.committed ++
      done.flatMap (fun g => (env.scripts g).map (fun s =>
        (s, ([] : List SqlValue)))) ∧
    (done.foldl (apply_script env) st).errorsLogged = st.errorsLogged := by
  induction done generalizing st with
  | nil => simp [hp]
  | cons g t ih =>
    have hg := hnone g (List.mem_cons_self _ _)
    have hstep := apply_script_ok hg st hp
    have hrest := ih (fun x hx => hnone x (List.mem_cons_of_mem _ hx))
      (apply_script env st g) hstep.1
    simp only [List.foldl_cons]
    refine ⟨hrest.1, ?_, hrest.2.2.trans hstep.2.2⟩
    rw [hrest.2.1, hstep.2.1]
    simp [List.flatMap_cons]

theorem migrate_list_stops_at_failure (env : MigrationEnv) (f : String)
    (i : Nat) (hf : env.failsAt f = some i) (rest : List String) :
    ∀ (done : List String), (∀ g ∈ done, env.failsAt g = none) →
      ∀ (st : DBState),
        migrate_list env st (done ++ f :: rest) =
          (log_error (apply_script env (done.foldl (apply_script env) st) f),
            false) := by
  intro done
  induction done with
  | nil =>
    intro _ st
    have h2 : (run_migration env st f).2 = false := by
      unfold run_migration
      rw [hf]
    show (if (run_migration env st f).2 then
        migrate_list env (run_migration env st f).1 rest
      else (log_error (run_migration env st f).1, false)) = _
    rw [h2]
    simp [apply_script]
  | cons g done' ih =>
    intro hnone st
    have hg : env.failsAt g = none := hnone g (List.mem_cons_self _ _)
    have h2 : (run_migration env st g).2 = true := run_migration_ok hg st
    show (if (run_migration env st g).2 then
        migrate_list env (run_migration env st g).1 (done' ++ f :: rest)
      else (log_error (run_migration env st g).1, false)) = _
    rw [h2, if_pos rfl]
    rw [ih (fun x hx => hnone x (List.mem_cons_of_mem _ hx))
      (run_migration env st g).1]
    rfl

/-- C2 counterexample: on a run whose fourth script fails, `migrate` stops
there and surfaces the failure as the boolean `False` return value of
`migrate` — a boolean failure signal, not a non-boolean one. -/
theorem C2_counterexample :
    (migrate sampleFailEnv {}).2 = false ∧
    (migrate sampleFailEnv {}).1.attempted =
      ["repositories.sql", "miners.sql", "miner_evaluations.sql",
       "pull_requests.sql"] := by
  constructor
  · rfl
  · rfl

/-- C2 (amended): if a script in the hardcoded ordered sequence fails,
migrate stops immediately without attempting subsequent scripts, the
failing script's partial effects are rolled back while scripts committed
earlier in the run stay committed, and the failure is reported by logging
the error and returning the boolean False (not a non-boolean signal). -/
theorem C2_migrate_aborts_on_failure :
    ∀ (env : MigrationEnv) (st : DBState) (done rest : List String)
      (f : String) (i : Nat),
      get_migration_files = done ++ f :: rest →
      (∀ g ∈ done, env.failsAt g = none) →
      env.failsAt f = some i →
      st.pending = [] →
      (migrate env st).2 = false ∧
      (migrate env st).1.attempted = st.attempted ++ done ++ [f] ∧
      (migrate env st).1.pending = [] ∧
      (migrate env st).1.committed = st.committed ++
        done.flatMap (fun g => (env.scripts g).map (fun s =>
          (s, ([] : List SqlValue)))) ∧
      (migrate env st).1.errorsLogged = st.errorsLogged + 2 := by
  intro env st done rest f i horder hnone hf hp
  have hrun : migrate env st =
      (log_error (apply_script env (done.foldl (apply_script env) st) f),
        false) := by
    unfold migrate
    rw [horder]
    exact migrate_list_stops_at_failure env f i hf rest done hnone st
  have hok := foldl_apply_script_ok env done hnone st hp
  have hfail := apply_script_fail hf (done.foldl (apply_script env) st)
  rw [hrun]
  refine ⟨rfl, ?_, ?_, ?_, ?_⟩
  · show (apply_script env (done.foldl (apply_script env) st) f).attempted =
      st.attempted ++ done ++ [f]
    rw [show apply_script env (done.foldl (apply_script env) st) f =
        (run_migration env (done.foldl (apply_script env) st) f).1 from rfl,
      run_migration_attempted, foldl_apply_script_attempted]
  · exact hfail.1
  · show (apply_script env (done.foldl (apply_script env) st) f).committed = _
    rw [hfail.2.1, hok.2.1]
  · show (apply_script env (done.foldl (apply_script env) st) f).errorsLogged
        + 1 = st.errorsLogged + 2
    rw [hfail.2.2, hok.2.2]

theorem C2_migrate_aborts_on_failure_witness :
    (get_migration_files =
      ["repositories.sql", "miners.sql", "miner_evaluations.sql"] ++
        "pull_requests.sql" :: ["issues.sql", "file_changes.sql"] ∧
     sampleFailEnv.failsAt "pull_requests.sql" = some 0 ∧
     DBState.pending {} = []) ∧
    ((migrate sampleFailEnv {}).2 = false ∧
     (migrate sampleFailEnv {}).1.attempted =
       DBState.attempted {} ++
         ["repositories.sql", "miners.sql", "miner_evaluations.sql"] ++
         ["pull_requests.sql"] ∧
     (migrate sampleFailEnv {}).1.pending = [] ∧
     (migrate sampleFailEnv {}).1.errorsLogged = DBState.errorsLogged {} + 2) := by
  have h := C2_migrate_aborts_on_failure sampleFailEnv {}
    ["repositories.sql", "miners.sql", "miner_evaluations.sql"]
    ["issues.sql", "file_changes.sql"] "pull_requests.sql" 0
    rfl (by decide) rfl rfl
  exact ⟨⟨rfl, rfl, rfl⟩, h.1, h.2.1, h.2.2.1, h.2.2.2.2⟩

end GittensorDB
